import Mathlib

/-!
Verification development for the `stream_checker` audio-analysis core.

The definitions below are shallow embeddings of the Python sources:
  * `src/stream_checker/utils/subprocess_utils.py` (`_classify_returncode`),
  * `src/stream_checker/core/audio_analysis.py` (`AudioAnalyzer.__init__`,
    `_download_audio_sample`, `_load_audio_raw`, `_detect_silence`,
    `_analyze_quality`, `_detect_errors`, `analyze`).

Python floats are modelled by exact rationals (ℚ) for the arithmetic the
claims depend on, and by real numbers (ℝ) for the logarithm/square-root
based dB values; a float `-inf` sentinel becomes an `Option` `none`.
External effects (the ffmpeg worker process, the file system) are modelled
by explicit outcome parameters, so each function is total over its oracle.
-/

namespace StreamChecker

/-! ## `_classify_returncode` (subprocess_utils.py lines 177-223) -/

/-- Result of `_classify_returncode`: the `signal_num` / `signal_name` /
`is_signal_kill` fields of the returned dict. -/
structure SignalInfo where
  signal_num : Option ℤ
  signal_name : Option String
  is_signal_kill : Bool
deriving DecidableEq, Repr

/-- The `signal_names` lookup table (subprocess_utils.py lines 203-211). -/
def signalNames (n : ℤ) : Option String :=
  if n = 1 then some "SIGHUP"
  else if n = 2 then some "SIGINT"
  else if n = 3 then some "SIGQUIT"
  else if n = 6 then some "SIGABRT"
  else if n = 9 then some "SIGKILL"
  else if n = 11 then some "SIGSEGV"
  else if n = 15 then some "SIGTERM"
  else none

/-- Python `signal_names.get(signal_num, f'SIG{signal_num}')` (line 212). -/
def sigName (n : ℤ) : String := (signalNames n).getD ("SIG" ++ toString n)

/-- Shallow embedding of `_classify_returncode` (subprocess_utils.py
lines 177-223).  `none` models Python `returncode is None`. -/
def classifyReturncode (returncode : Option ℤ) : SignalInfo :=
  match returncode with
  | none => ⟨none, none, false⟩
  | some rc =>
    if rc < 0 then
      ⟨some (-rc), some (sigName (-rc)), true⟩
    else if 128 ≤ rc then
      ⟨some (rc - 128), some (sigName (rc - 128)), true⟩
    else
      ⟨none, none, false⟩

/-! ## `AudioAnalyzer.__init__` (audio_analysis.py lines 110-124) -/

/-- Shallow embedding of the constructor validation: `.error msg` models a
raised `ValueError(msg)`, `.ok` models successful construction storing the
three configuration values. -/
def audioAnalyzerInit (sample_duration : ℤ) (silence_threshold_db : ℚ)
    (silence_min_duration : ℚ) : Except String (ℤ × ℚ × ℚ) :=
  if sample_duration ≤ 0 then
    .error "sample_duration must be positive"
  else if ¬ (-100 ≤ silence_threshold_db ∧ silence_threshold_db ≤ 0) then
    .error "silence_threshold_db must be between -100 and 0"
  else if silence_min_duration ≤ 0 then
    .error "silence_min_duration must be positive"
  else
    .ok (sample_duration, silence_threshold_db, silence_min_duration)

/-! ## `_download_audio_sample` (audio_analysis.py lines 267-405)

The external ffmpeg invocation is modelled by a `RunOutcome` oracle: either
the worker completed with a return code (and the output file then exists
with some size), or the call timed out, or it raised.  The non-macOS branch
(lines 358-367) and the macOS branch compute the same
`(process_returncode, process_stderr)` data, so one outcome type covers
both. -/

/-- Outcome of the single ffmpeg invocation made by `_download_audio_sample`. -/
inductive RunOutcome
  | completed (rc : ℤ) (fileExists : Bool) (size : ℕ)
  | timedOut (fileExists : Bool)
  | raised (fileExists : Bool)
deriving DecidableEq, Repr

/-- Environment for one `_download_audio_sample` call: whether
`_find_ffmpeg` located a binary, and the outcome of the ffmpeg run. -/
structure DownloadEnv where
  ffmpegFound : Bool
  outcome : RunOutcome
deriving DecidableEq, Repr

/-- One recorded external-process invocation: the argv list and the
`timeout` passed to the runner. -/
structure Invocation where
  cmd : List String
  timeout : ℚ
deriving DecidableEq, Repr

/-- The argv list built at audio_analysis.py lines 281-290 (the single
download command: full transcode to mp3, 44100 Hz, stereo). -/
def downloadCmd (url : String) (sample_duration : ℤ) (tempPath : String) : List String :=
  ["ffmpeg", "-i", url, "-t", toString sample_duration,
   "-acodec", "libmp3lame", "-ar", "44100", "-ac", "2", "-y", tempPath]

/-- Result of `_download_audio_sample`: the returned value (`some ()` models
a returned temp-file path, `none` models Python `None`), the list of ffmpeg
invocations issued, and whether a partial output file remains on disk after
a failed call. -/
structure DownloadResult where
  path : Option Unit
  invocations : List Invocation
  leftover : Bool
deriving DecidableEq, Repr

/-- Shallow embedding of `_download_audio_sample` (audio_analysis.py lines
267-405).  The function makes at most one ffmpeg invocation, with
`timeout = sample_duration + 30` (line 294); success requires return code 0
and an existing output file of size > 0 (lines 369-372); on every failure
path the partial file, if it exists, is unlinked before returning `None`. -/
def downloadAudioSample (url : String) (sample_duration : ℤ) (env : DownloadEnv) :
    DownloadResult :=
  if ¬ env.ffmpegFound then ⟨none, [], false⟩
  else
    let inv : Invocation := ⟨downloadCmd url sample_duration "<temp>",
      (sample_duration : ℚ) + 30⟩
    match env.outcome with
    | .completed rc fileExists size =>
      if rc = 0 ∧ fileExists then
        if 0 < size then ⟨some (), [inv], false⟩
        else ⟨none, [inv], false⟩
      else ⟨none, [inv], false⟩
    | .timedOut _ => ⟨none, [inv], false⟩
    | .raised _ => ⟨none, [inv], false⟩

/-- Modelled from the spec: the three-strategy acquisition ladder of
spec §4.2 (stream copy, partial re-encode, full transcode), which is absent
from `_download_audio_sample` in the source.  Given the outcomes the three
strategies would produce, it returns the 1-based index of the first
successful attempt (success = exit code 0 and output file of size > 0), or
`none` when all three fail. -/
def acquireLadderSpec (o1 o2 o3 : RunOutcome) : Option ℕ :=
  let succeeds : RunOutcome → Bool := fun o =>
    match o with
    | .completed rc fileExists size => rc = 0 && fileExists && 0 < size
    | _ => false
  if succeeds o1 then some 1
  else if succeeds o2 then some 2
  else if succeeds o3 then some 3
  else none

/-! ## `_load_audio_raw` (audio_analysis.py lines 407-551)

The ffmpeg decode invocation is modelled by `LoadOutcome`: `ok rc stdout`
gives the worker's return code and its stdout parsed as a list of int16
samples (an odd byte count makes `np.frombuffer` raise, which the outer
handler turns into the `exn` case), `exn` models a timeout or any exception
reaching the outer `except` (lines 549-551). -/

/-- Outcome of the ffmpeg decode invocation in `_load_audio_raw`. -/
inductive LoadOutcome
  | ok (rc : ℤ) (stdout : List ℤ)
  | exn
deriving DecidableEq, Repr

/-- Average of each interleaved left/right int16 pair (the
`samples.reshape(-1, 2)` / `np.mean(..., axis=1)` step at audio_analysis.py
lines 527-530); a trailing unpaired element is dropped, matching reshape on
an even-length prefix only ever being applied to even-length input. -/
def pairsAvg : List ℤ → List ℚ
  | a :: b :: rest => (((a : ℚ) + (b : ℚ)) / 2) :: pairsAvg rest
  | _ => []

/-- Shallow embedding of `_load_audio_raw` (audio_analysis.py lines
407-551).  Returns `none` for every failure path (`(None, 0, 0)` in the
source) and otherwise the mono sample list with
`sample_rate = 44100, channels = 1` (line 547). -/
def loadAudioRaw (outcome : LoadOutcome) : Option (List ℚ × ℕ × ℕ) :=
  match outcome with
  | .exn => none
  | .ok rc stdout =>
    if rc ≠ 0 then none
    else if stdout.length = 0 then none
    else
      -- `if channels == 2 and len(samples) >= 2` (line 525): the downmix
      -- block is skipped entirely for a single-sample stream.
      if 2 ≤ stdout.length then
        if 2 ∣ stdout.length then
          some (pairsAvg stdout, 44100, 1)
        else
          -- reshape raises ValueError; the handler pads one zero (line 537)
          some (pairsAvg (stdout ++ [0]), 44100, 1)
      else
        some (stdout.map (fun s => (s : ℚ)), 44100, 1)

/-- Modelled from the spec: the downmix rule of spec §4.3 ("average each
left/right pair into one float64 sample. If the raw sample count is odd
(malformed stream), append one zero sample before pairing"), stated for
every raw sample sequence, used to compare with the source's
`_load_audio_raw`. -/
def downmixSpec (s : List ℤ) : List ℚ :=
  if 2 ∣ s.length then pairsAvg s else pairsAvg (s ++ [0])

/-! ## `_detect_silence` (audio_analysis.py lines 553-644)

Samples are exact rationals.  The per-window dB test goes through real
`sqrt`/`logb`, so the window classification is a `Prop` decided classically;
everything after the classification is computable rational arithmetic. -/

/-- One entry of the Python `silence_periods` working list:
`{"start": ..., "end": ..., "duration": ...}`, with `stop` playing the role
of the `"end"` key (`none` = the period is still open). -/
structure RawPeriod where
  start : ℚ
  stop : Option ℚ
  duration : ℚ
deriving DecidableEq, Repr

/-- Python `np.mean(window.astype(np.float64) ** 2)` (line 578). -/
def meanSq (w : List ℚ) : ℚ := (w.map (fun s => s * s)).sum / (w.length : ℚ)

/-- The window classification of lines 578-591: with `msq > 0` the rms is
`sqrt msq` (positive, so the dB branch applies) and the window is silent iff
`20*log10(rms / 2^15) < threshold`; with `msq = 0` the rms is 0, the dB
value is `-inf` and the window is silent for every threshold. -/
def windowSilent (thresholdDb : ℚ) (w : List ℚ) : Prop :=
  if 0 < meanSq w then
    20 * Real.logb 10 (Real.sqrt ((meanSq w : ℚ) : ℝ) / 2 ^ 15) < (thresholdDb : ℝ)
  else True

open Classical in
/-- The Boolean value of the window classification (the Python comparison
`rms_db < self.silence_threshold_db` evaluates to a concrete bool). -/
noncomputable def windowSilentB (thresholdDb : ℚ) (w : List ℚ) : Bool :=
  decide (windowSilent thresholdDb w)

/-- Start time of window `i`: Python `i * window_size / sample_rate`
(line 594). -/
def winStart (ws rate i : ℕ) : ℚ := ((i * ws : ℕ) : ℚ) / (rate : ℚ)

/-- One iteration of the loop at lines 574-610, acting on the state
`(silence_periods, total_silence_samples)`; the period list is kept
newest-first (its head is Python's `silence_periods[-1]`). -/
def silenceStep (ws rate : ℕ) (i : ℕ) (silent : Bool)
    (st : List RawPeriod × ℕ) : List RawPeriod × ℕ :=
  if silent then
    let timeStart := winStart ws rate i
    match st.1 with
    | [] => ([⟨timeStart, none, 0⟩], st.2 + ws)
    | p :: rest =>
      match p.stop with
      | some _ => (⟨timeStart, none, 0⟩ :: p :: rest, st.2 + ws)
      | none =>
        -- `silence_periods[-1]["end"] = time_start + window_size/sample_rate`
        -- (line 603); note `duration` is NOT updated here.
        ({ p with stop := some (timeStart + (ws : ℚ) / (rate : ℚ)) } :: rest, st.2 + ws)
  else
    match st.1 with
    | [] => st
    | p :: rest =>
      match p.stop with
      | some _ => st
      | none =>
        let e := winStart ws rate i
        ({ p with stop := some e, duration := e - p.start } :: rest, st.2)

/-- The `for i in range(num_windows)` loop, with the window index carried
explicitly and the per-window classification precomputed in `flags`. -/
def silenceLoop (ws rate : ℕ) : ℕ → List Bool → List RawPeriod × ℕ → List RawPeriod × ℕ
  | _, [], st => st
  | i, b :: rest, st => silenceLoop ws rate (i + 1) rest (silenceStep ws rate i b st)

/-- The close-out loop at lines 612-616: an open period gets
`end = len(samples)/sample_rate` and its duration recomputed; a closed
period is untouched. -/
def closePeriod (e : ℚ) (p : RawPeriod) : RawPeriod :=
  match p.stop with
  | some _ => p
  | none => ⟨p.start, some e, e - p.start⟩

/-- Round-half-to-even to an integer, the tie rule of Python `round`. -/
def roundHalfEven (x : ℚ) : ℤ :=
  if x - ⌊x⌋ < 1 / 2 then ⌊x⌋
  else if 1 / 2 < x - ⌊x⌋ then ⌊x⌋ + 1
  else if ⌊x⌋ % 2 = 0 then ⌊x⌋ else ⌊x⌋ + 1

/-- Python `round(x, 2)` on the exact-rational model of floats. -/
def pyRound2 (x : ℚ) : ℚ := (roundHalfEven (100 * x) : ℚ) / 100

/-- One reported silence period (lines 636-640), fields already rounded. -/
structure SilencePeriodOut where
  start_seconds : ℚ
  end_seconds : ℚ
  duration_seconds : ℚ
deriving DecidableEq, Repr

/-- The `result["silence_detection"]` record (lines 632-644). -/
structure SilenceDetectionR where
  silence_detected : Bool
  silence_percentage : ℚ
  silence_periods : List SilencePeriodOut
  threshold_db : ℚ
deriving DecidableEq, Repr

/-- The body of `_detect_silence` after its guards (lines 571-644), with
`window_size` and `num_windows` passed in: classify the windows, run the
loop, close open periods at `len(samples)/sample_rate`, filter by the
minimum duration, and build the reported record. -/
noncomputable def silenceResult (thresholdDb minDuration : ℚ) (samples : List ℚ)
    (sampleRate ws nw : ℕ) : SilenceDetectionR :=
  let flags := (List.range nw).map
    (fun i => windowSilentB thresholdDb ((samples.drop (i * ws)).take ws))
  let st := silenceLoop ws sampleRate 0 flags ([], 0)
  let periods := (st.1.reverse).map
    (closePeriod ((samples.length : ℚ) / (sampleRate : ℚ)))
  let significant := periods.filter (fun p => minDuration ≤ p.duration)
  let pct : ℚ :=
    if 0 < samples.length then (st.2 : ℚ) / (samples.length : ℚ) * 100 else 0
  { silence_detected := decide (0 < significant.length)
    silence_percentage := pyRound2 pct
    silence_periods := significant.map (fun p =>
      ⟨pyRound2 p.start, pyRound2 (p.stop.getD 0), pyRound2 p.duration⟩)
    threshold_db := thresholdDb }

/-- Shallow embedding of `_detect_silence` (audio_analysis.py lines
553-644).  `none` models the early returns that leave the result dict
untouched (invalid sample rate, empty buffer, no full window); the
`channels` argument of the Python method is unused there and omitted.
`window_size = max(1, int(sample_rate * 0.1))` is modelled as
`max 1 (sampleRate / 10)` (floor division).  The dead
`if len(window) == 0: continue` guard (windows of index `< num_windows`
are always full) has no counterpart. -/
noncomputable def detectSilence (thresholdDb minDuration : ℚ) (samples : List ℚ)
    (sampleRate : ℕ) : Option SilenceDetectionR :=
  if sampleRate = 0 then none
  else if samples.length = 0 then none
  else if samples.length / max 1 (sampleRate / 10) = 0 then none
  else some (silenceResult thresholdDb minDuration samples sampleRate
    (max 1 (sampleRate / 10)) (samples.length / max 1 (sampleRate / 10)))

/-- The reported `silence_periods` list of a (possibly skipped) silence
pass; a skipped pass reports no periods. -/
def reportedPeriods (o : Option SilenceDetectionR) : List SilencePeriodOut :=
  match o with
  | none => []
  | some r => r.silence_periods

/-! ## `_analyze_quality` (audio_analysis.py lines 646-680) -/

/-- Round-half-to-even on the real line (for the dB outputs). -/
noncomputable def roundHalfEvenR (x : ℝ) : ℤ :=
  if x - ⌊x⌋ < 1 / 2 then ⌊x⌋
  else if 1 / 2 < x - ⌊x⌋ then ⌊x⌋ + 1
  else if ⌊x⌋ % 2 = 0 then ⌊x⌋ else ⌊x⌋ + 1

/-- Python `round(x, 2)` for the real-valued dB quantities. -/
noncomputable def pyRound2R (x : ℝ) : ℝ := (roundHalfEvenR (100 * x) : ℝ) / 100

/-- The `result["audio_quality"]` record.  On the success path of
`_analyze_quality` (lines 674-680) all five keys are present; in the
initial dict (lines 149-154) the `clipping_percentage` key is absent,
which is modelled by `clipping_percentage = none`.  A dB value of `-inf`
is reported as `None`, modelled by `none`. -/
structure AudioQualityR where
  average_volume_db : Option ℝ
  peak_volume_db : Option ℝ
  dynamic_range_db : Option ℝ
  clipping_detected : Bool
  clipping_percentage : Option ℚ

/-- Shallow embedding of `_analyze_quality` (audio_analysis.py lines
646-680); `none` models the early return on an empty buffer. -/
noncomputable def analyzeQuality (samples : List ℚ) : Option AudioQualityR :=
  if samples.length = 0 then none
  else
    let normalized := samples.map (fun s => s / 2 ^ 15)
    let rmsSq : ℚ := (normalized.map (fun s => s * s)).sum / (normalized.length : ℚ)
    -- rms = sqrt(rmsSq) if rmsSq > 0 else 0; rms_db = -inf iff rms = 0
    let rmsDb : Option ℝ :=
      if 0 < rmsSq then some (20 * Real.logb 10 (Real.sqrt ((rmsSq : ℚ) : ℝ))) else none
    -- peak = np.max(np.abs(normalized)): a fold of max over nonnegatives
    let peak : ℚ := (normalized.map (fun s => |s|)).foldr max 0
    let peakDb : Option ℝ :=
      if 0 < peak then some (20 * Real.logb 10 ((peak : ℚ) : ℝ)) else none
    let dynamicRange : Option ℝ :=
      match peakDb, rmsDb with
      | some p, some r => some (p - r)
      | _, _ => none
    let clipped := (normalized.filter (fun s => 99 / 100 ≤ |s|)).length
    let clippingPct : ℚ :=
      if 0 < normalized.length then (clipped : ℚ) / (normalized.length : ℚ) * 100 else 0
    some
      { average_volume_db := rmsDb.map pyRound2R
        peak_volume_db := peakDb.map pyRound2R
        dynamic_range_db := dynamicRange.map pyRound2R
        clipping_detected := decide ((1 : ℚ) < clippingPct)
        clipping_percentage := some (pyRound2 clippingPct) }

/-! ## `_detect_errors` (audio_analysis.py lines 682-729) -/

/-- The `result["error_detection"]` record. -/
structure ErrorDetectionR where
  error_detected : Bool
  error_messages : List String
  repetitive_pattern_detected : Bool
deriving DecidableEq, Repr

/-- Python `np.var` (population variance) of a window. -/
def npVar (w : List ℚ) : ℚ :=
  let mu := w.sum / (w.length : ℚ)
  ((w.map (fun s => (s - mu) * (s - mu))).sum) / (w.length : ℚ)

open Classical in
/-- Shallow embedding of `_detect_errors` (audio_analysis.py lines
682-729); degenerate inputs leave the record unchanged.  `np.std` of the
variance list is `sqrt` of its population variance; the NaN/inf guard of
lines 716-717 never fires in the exact model. -/
noncomputable def detectErrors (samples : List ℚ) (sampleRate : ℕ)
    (r : ErrorDetectionR) : ErrorDetectionR :=
  if samples.length = 0 ∨ sampleRate = 0 then r
  else
    let normalized := samples.map (fun s => s / 2 ^ 15)
    let ws := max 1 sampleRate
    let nw := normalized.length / ws
    if nw < 2 then r
    else
      let windows := (List.range nw).map (fun i => (normalized.drop (i * ws)).take ws)
      let variances := (windows.filter (fun w => 0 < w.length)).map npVar
      if 1 < variances.length then
        let varianceMean := variances.sum / (variances.length : ℚ)
        let varianceStd : ℝ := Real.sqrt ((npVar variances : ℚ) : ℝ)
        if varianceMean < 1 / 100 ∧ varianceStd < 5 / 1000 then
          { error_detected := true
            error_messages := r.error_messages ++
              ["Repetitive audio pattern detected (possible error message)"]
            repetitive_pattern_detected := true }
        else r
      else r

/-! ## `AudioAnalyzer.analyze` (audio_analysis.py lines 126-187) -/

/-- The aggregate result record of `analyze` (lines 136-155 plus the
optional `result["error"]` key, absent = `none`). -/
structure AnalysisResult where
  sample_duration_seconds : ℤ
  silence_detection : SilenceDetectionR
  error_detection : ErrorDetectionR
  audio_quality : AudioQualityR
  error : Option String

/-- The initial result dict built at lines 136-155 (note: its
`audio_quality` sub-dict has no `clipping_percentage` key). -/
def initialResult (sd : ℤ) (thresholdDb : ℚ) : AnalysisResult :=
  { sample_duration_seconds := sd
    silence_detection := ⟨false, 0, [], thresholdDb⟩
    error_detection := ⟨false, [], false⟩
    audio_quality := ⟨none, none, none, false, none⟩
    error := none }

/-- `_detect_silence` as a result-record update (it mutates
`result["silence_detection"]` only when it does not return early). -/
noncomputable def detectSilenceUpd (thresholdDb minDuration : ℚ) (samples : List ℚ)
    (sampleRate : ℕ) (r : AnalysisResult) : AnalysisResult :=
  match detectSilence thresholdDb minDuration samples sampleRate with
  | none => r
  | some sd => { r with silence_detection := sd }

/-- `_analyze_quality` as a result-record update. -/
noncomputable def analyzeQualityUpd (samples : List ℚ) (r : AnalysisResult) :
    AnalysisResult :=
  match analyzeQuality samples with
  | none => r
  | some aq => { r with audio_quality := aq }

/-- `_detect_errors` as a result-record update. -/
noncomputable def detectErrorsUpd (samples : List ℚ) (sampleRate : ℕ)
    (r : AnalysisResult) : AnalysisResult :=
  { r with error_detection := detectErrors samples sampleRate r.error_detection }

/-- Shallow embedding of `analyze` (audio_analysis.py lines 126-187).  The
two external effects are the download (modelled by `DownloadEnv`) and the
decode ffmpeg run (modelled by `LoadOutcome`); the three analysis passes
are total functions, so the `except Exception` arm at lines 175-177 is
unreachable in the model and `analyze` always returns a record. -/
noncomputable def analyze (url : String) (sd : ℤ) (thresholdDb minDuration : ℚ)
    (denv : DownloadEnv) (lout : LoadOutcome) : AnalysisResult :=
  let result := initialResult sd thresholdDb
  match (downloadAudioSample url sd denv).path with
  | none => { result with error := some "Failed to download audio sample" }
  | some _ =>
    match loadAudioRaw lout with
    | none => { result with error := some "Failed to load audio data" }
    | some (samples, rate, _channels) =>
      detectErrorsUpd samples rate
        (analyzeQualityUpd samples
          (detectSilenceUpd thresholdDb minDuration samples rate result))

/-- Boolean test for the error case of an `Except` (a raised `ValueError` in
the embedding of the constructor). -/
def exceptIsError {ε α : Type} : Except ε α → Bool
  | .error _ => true
  | .ok _ => false

/-! ## Invariants of the silence-period working list -/

/-- Every period in the (newest-first) list is closed with
`start < stop ≤ bound`, and the periods before it are in turn bounded by
its start: the chronological list is ordered and non-overlapping. -/
def ClosedChain (bound : ℚ) : List RawPeriod → Prop
  | [] => True
  | p :: rest =>
      (∃ e, p.stop = some e ∧ p.start < e ∧ e ≤ bound) ∧ ClosedChain p.start rest

/-- Invariant of the `silenceLoop` state after processing windows
`0 .. i-1` with `bound = i·u` (`u` the window duration): only the head may
still be open, and an open head was created at window `i-1`, so its start
is at most `bound - u`; the tail is a closed chain below the head's
start. -/
def InvState (u bound : ℚ) : List RawPeriod → Prop
  | [] => True
  | p :: rest =>
      (match p.stop with
       | some e => p.start < e ∧ e ≤ bound
       | none => p.start ≤ bound - u) ∧ ClosedChain p.start rest

/-- The newest period (if any) is closed — the state in which a silent
window starts a fresh period. -/
def HeadClosed : List RawPeriod → Prop
  | [] => True
  | p :: _ => ∃ e, p.stop = some e

/-- The periods a run of `2k` consecutive silent windows starting at window
`i` leaves on the working list (newest first): `k` two-window periods, each
with its `duration` field still 0 — the merge slip of lines 595-603. -/
def pairBlocks (ws rate : ℕ) : ℕ → ℕ → List RawPeriod
  | _, 0 => []
  | i, k + 1 =>
      pairBlocks ws rate (i + 2) k ++
        [⟨winStart ws rate i, some (winStart ws rate (i + 1) + (ws : ℚ) / (rate : ℚ)), 0⟩]

/-! ## Theorems -/

/-- C5: crash classification maps a negative code `-n` to signal number `n`
and a code ≥ 128 to signal number `code - 128`; signal numbers
1, 2, 3, 6, 9, 11, 15 are named SIGHUP, SIGINT, SIGQUIT, SIGABRT, SIGKILL,
SIGSEGV, SIGTERM; every other derived signal number still yields
`is_signal_kill = true` with the generic name `SIG<n>`; in particular both
SIGSEGV conventions (-11 and 139) yield `is_signal_kill = true` and
`signal_name = "SIGSEGV"`. -/
theorem classifyReturncode_spec (rc : ℤ) :
    (rc < 0 → classifyReturncode (some rc) = ⟨some (-rc), some (sigName (-rc)), true⟩) ∧
    (128 ≤ rc → classifyReturncode (some rc) =
      ⟨some (rc - 128), some (sigName (rc - 128)), true⟩) ∧
    sigName 1 = "SIGHUP" ∧ sigName 2 = "SIGINT" ∧ sigName 3 = "SIGQUIT" ∧
    sigName 6 = "SIGABRT" ∧ sigName 9 = "SIGKILL" ∧ sigName 11 = "SIGSEGV" ∧
    sigName 15 = "SIGTERM" ∧
    (rc ∉ ([1, 2, 3, 6, 9, 11, 15] : List ℤ) → sigName rc = "SIG" ++ toString rc) ∧
    classifyReturncode (some (-11)) = ⟨some 11, some "SIGSEGV", true⟩ ∧
    classifyReturncode (some 139) = ⟨some 11, some "SIGSEGV", true⟩ := by
  refine ⟨?_, ?_, by decide, by decide, by decide, by decide, by decide, by decide,
    by decide, ?_, by decide, by decide⟩
  · intro h
    simp [classifyReturncode, h]
  · intro h
    simp [classifyReturncode, h]
    omega
  · intro h
    simp only [List.mem_cons, List.mem_singleton, not_or] at h
    obtain ⟨h1, h2, h3, h6, h9, h11, h15, _⟩ := h
    simp [sigName, signalNames, h1, h2, h3, h6, h9, h11, h15]

/-- Witness for C5 at the concrete return code -9 (killed by SIGKILL). -/
theorem classifyReturncode_spec_witness :
    classifyReturncode (some (-9)) = ⟨some 9, some "SIGKILL", true⟩ :=
  (classifyReturncode_spec (-9)).1 (by decide)

/-- C10: the constructor raises `ValueError` exactly when
`sample_duration ≤ 0`, `silence_threshold_db` lies outside [-100, 0], or
`silence_min_duration ≤ 0`; in particular every `sample_duration > 300`
with otherwise valid parameters is accepted. -/
theorem audioAnalyzerInit_spec (d : ℤ) (t m : ℚ) :
    (exceptIsError (audioAnalyzerInit d t m) = true ↔
      (d ≤ 0 ∨ t < -100 ∨ 0 < t ∨ m ≤ 0)) ∧
    (300 < d → -100 ≤ t → t ≤ 0 → 0 < m →
      audioAnalyzerInit d t m = .ok (d, t, m)) := by
  have herr : ∀ s : String, exceptIsError (Except.error (α := ℤ × ℚ × ℚ) s) = true :=
    fun _ => rfl
  have hok : ∀ x : ℤ × ℚ × ℚ, exceptIsError (Except.ok (ε := String) x) = false :=
    fun _ => rfl
  constructor
  · unfold audioAnalyzerInit
    by_cases h1 : d ≤ 0
    · rw [if_pos h1, herr]
      simp [h1]
    · rw [if_neg h1]
      by_cases h2 : -100 ≤ t ∧ t ≤ 0
      · rw [if_neg (not_not_intro h2)]
        by_cases h3 : m ≤ 0
        · rw [if_pos h3, herr]
          simp [h3]
        · rw [if_neg h3, hok]
          simp only [Bool.false_eq_true, false_iff, not_or, not_le, not_lt]
          exact ⟨not_le.mp h1, h2.1, h2.2, not_le.mp h3⟩
      · rw [if_pos h2, herr]
        simp only [true_iff]
        rcases not_and_or.mp h2 with h | h
        · exact .inr (.inl (not_le.mp h))
        · exact .inr (.inr (.inl (not_le.mp h)))
  · intro hd ht1 ht2 hm
    unfold audioAnalyzerInit
    rw [if_neg (by omega), if_neg (not_not_intro ⟨ht1, ht2⟩), if_neg (not_le.mpr hm)]

/-- Witness for C10 at a concrete over-documented-range duration (301 s
with default threshold and min-duration). -/
theorem audioAnalyzerInit_spec_witness :
    audioAnalyzerInit 301 (-40) 2 = .ok (301, -40, 2) :=
  (audioAnalyzerInit_spec 301 (-40) 2).2 (by decide) (by decide) (by decide) (by decide)

/-- Evaluation of `downloadAudioSample` when `_find_ffmpeg` finds nothing. -/
theorem downloadAudioSample_notFound (url : String) (d : ℤ) (oc : RunOutcome) :
    downloadAudioSample url d ⟨false, oc⟩ = ⟨none, [], false⟩ := rfl

/-- Evaluation of `downloadAudioSample` on a completed ffmpeg run. -/
theorem downloadAudioSample_completed (url : String) (d : ℤ) (rc : ℤ)
    (ex : Bool) (size : ℕ) :
    downloadAudioSample url d ⟨true, .completed rc ex size⟩ =
      (if rc = 0 ∧ ex = true then
        (if 0 < size then
          ⟨some (), [⟨downloadCmd url d "<temp>", (d : ℚ) + 30⟩], false⟩
        else ⟨none, [⟨downloadCmd url d "<temp>", (d : ℚ) + 30⟩], false⟩)
      else ⟨none, [⟨downloadCmd url d "<temp>", (d : ℚ) + 30⟩], false⟩) := rfl

/-- Evaluation of `downloadAudioSample` on a timed-out ffmpeg run. -/
theorem downloadAudioSample_timedOut (url : String) (d : ℤ) (ex : Bool) :
    downloadAudioSample url d ⟨true, .timedOut ex⟩ =
      ⟨none, [⟨downloadCmd url d "<temp>", (d : ℚ) + 30⟩], false⟩ := rfl

/-- Evaluation of `downloadAudioSample` when the run raised. -/
theorem downloadAudioSample_raised (url : String) (d : ℤ) (ex : Bool) :
    downloadAudioSample url d ⟨true, .raised ex⟩ =
      ⟨none, [⟨downloadCmd url d "<temp>", (d : ℚ) + 30⟩], false⟩ := rfl

/-- C8 counterexample: at `sample_duration = 10` the single ffmpeg
invocation is issued with timeout 40 = 10 + 30, not 2×10 + 30 = 50. -/
theorem downloadTimeout_counterexample :
    (downloadAudioSample "http://example" 10 ⟨true, .completed 1 true 0⟩).invocations =
      [⟨downloadCmd "http://example" 10 "<temp>", 40⟩] ∧ ((40 : ℚ) ≠ 2 * 10 + 30) := by
  constructor
  · rw [downloadAudioSample_completed]
    norm_num
  · norm_num

/-- C8 amended: every ffmpeg invocation issued by `_download_audio_sample`
for a requested duration `d` carries a ProcessRunner timeout of `d + 30`
seconds. -/
theorem downloadTimeout_spec (url : String) (d : ℤ) (env : DownloadEnv) :
    (downloadAudioSample url d env).invocations.Forall
      (fun inv => inv.timeout = (d : ℚ) + 30) := by
  obtain ⟨ff, oc⟩ := env
  cases ff
  case false => rw [downloadAudioSample_notFound]; trivial
  case true =>
    cases oc
    case completed rc ex size =>
      rw [downloadAudioSample_completed]
      split_ifs <;> exact rfl
    case timedOut ex => rw [downloadAudioSample_timedOut]; exact rfl
    case raised ex => rw [downloadAudioSample_raised]; exact rfl

/-- C3 counterexample: when the single transcode attempt fails (exit code 1)
the code issues exactly one invocation and returns a failure, although under
the spec's three-strategy ladder a second attempt would have succeeded. -/
theorem acquisition_single_attempt_counterexample :
    (downloadAudioSample "http://example" 10 ⟨true, .completed 1 true 3⟩).path = none ∧
    (downloadAudioSample "http://example" 10 ⟨true, .completed 1 true 3⟩).invocations.length = 1 ∧
    acquireLadderSpec (.completed 1 true 3) (.completed 0 true 5) (.completed 0 true 5) =
      some 2 := by
  refine ⟨by decide, by decide, by decide⟩

/-- C3 amended: sample acquisition makes a single full-transcode attempt
(no strategy ladder); it succeeds exactly when ffmpeg was found, the
process exits with code 0 and the output file exists with size > 0; on
every failure no partial file remains on disk; at most one invocation is
ever issued. -/
theorem downloadAudioSample_spec (url : String) (d : ℤ) (env : DownloadEnv) :
    ((downloadAudioSample url d env).path.isSome = true ↔
      (env.ffmpegFound = true ∧
        ∃ size, 0 < size ∧ env.outcome = .completed 0 true size)) ∧
    ((downloadAudioSample url d env).path = none →
      (downloadAudioSample url d env).leftover = false) ∧
    (downloadAudioSample url d env).invocations.length ≤ 1 := by
  obtain ⟨ff, oc⟩ := env
  cases ff
  case false =>
    rw [downloadAudioSample_notFound]
    refine ⟨?_, fun _ => rfl, by simp⟩
    simp
  case true =>
    cases oc
    case completed rc ex size =>
      rw [downloadAudioSample_completed]
      by_cases h : rc = 0 ∧ ex = true
      · obtain ⟨h0, hex⟩ := h
        subst h0; subst hex
        by_cases hs : 0 < size
        · rw [if_pos ⟨rfl, rfl⟩, if_pos hs]
          refine ⟨?_, fun hp => by simp at hp, by simp⟩
          simp only [Option.isSome_some, true_iff]
          exact ⟨trivial, size, hs, rfl⟩
        · rw [if_pos ⟨rfl, rfl⟩, if_neg hs]
          refine ⟨?_, fun _ => rfl, by simp⟩
          simp only [Option.isSome_none, Bool.false_eq_true, false_iff]
          rintro ⟨-, s, hs0, hcon⟩
          injection hcon with h0 hex hsz
          omega
      · rw [if_neg h]
        refine ⟨?_, fun _ => rfl, by simp⟩
        simp only [Option.isSome_none, Bool.false_eq_true, false_iff]
        rintro ⟨-, s, -, hcon⟩
        injection hcon with h0 hex hsz
        exact h ⟨h0, hex⟩
    case timedOut ex =>
      rw [downloadAudioSample_timedOut]
      refine ⟨by simp, fun _ => rfl, by simp⟩
    case raised ex =>
      rw [downloadAudioSample_raised]
      refine ⟨by simp, fun _ => rfl, by simp⟩

/-- Witness for C3's amended theorem at a concrete timed-out environment. -/
theorem downloadAudioSample_spec_witness :
    (downloadAudioSample "u" 10 ⟨true, .timedOut true⟩).leftover = false :=
  (downloadAudioSample_spec "u" 10 ⟨true, .timedOut true⟩).2.1 (by decide)

/-- C6: `_load_audio_raw` returns a load failure (no buffer) whenever the
transcoder exits with a non-zero code, produces empty output, or an
exception (including the zero-byte-file parse failure) reaches the outer
handler; it never raises past its boundary (the embedding is a total
function into `Option`). -/
theorem loadAudioRaw_failure_spec (rc : ℤ) (stdout : List ℤ) :
    loadAudioRaw .exn = none ∧
    (rc ≠ 0 → loadAudioRaw (.ok rc stdout) = none) ∧
    (stdout = [] → loadAudioRaw (.ok rc stdout) = none) := by
  refine ⟨rfl, ?_, ?_⟩
  · intro h
    simp [loadAudioRaw, h]
  · intro h
    subst h
    simp [loadAudioRaw]

/-- Witness for C6 at a concrete failing decode (exit code 1, as for a
zero-byte input file). -/
theorem loadAudioRaw_failure_spec_witness :
    loadAudioRaw (.ok 1 [7]) = none :=
  (loadAudioRaw_failure_spec 1 [7]).2.1 (by decide)

/-- C7 counterexample: on the odd sample count 1 the downmix block is
skipped (`len(samples) >= 2` guard), so the raw sample 5 is returned
unchanged instead of being zero-padded and averaged to 5/2. -/
theorem downmix_odd_counterexample :
    loadAudioRaw (.ok 0 [5]) = some ([5], 44100, 1) ∧
    downmixSpec [5] = [(5 : ℚ) / 2] ∧ ([(5 : ℚ)] ≠ [(5 : ℚ) / 2]) := by
  refine ⟨by rfl, by norm_num [downmixSpec, pairsAvg], by norm_num⟩

/-- C7 amended: for every raw int16 sample sequence of length at least 2,
decode averages each interleaved pair into one sample, appending one zero
sample first when the count is odd, and returns the buffer with
`sample_rate = 44100` and `channels = 1`; a single-sample sequence is
returned unchanged (still with rate 44100 and channels 1). -/
theorem loadAudioRaw_downmix_spec (stdout : List ℤ) (h : 2 ≤ stdout.length) :
    loadAudioRaw (.ok 0 stdout) = some (downmixSpec stdout, 44100, 1) := by
  have h0 : ¬ stdout.length = 0 := by omega
  simp only [loadAudioRaw, downmixSpec, ne_eq, not_true_eq_false, if_false, h0, if_neg h0,
    if_pos h]
  split_ifs <;> simp

/-- Witness for C7's amended theorem at the concrete stereo pair (1, 3). -/
theorem loadAudioRaw_downmix_spec_witness :
    loadAudioRaw (.ok 0 [1, 3]) = some (downmixSpec [1, 3], 44100, 1) :=
  loadAudioRaw_downmix_spec [1, 3] (by decide)


/-! ### Silence-period invariants (towards C9) -/

/-- Evaluation: a non-silent window with no periods yet does nothing. -/
theorem silenceStep_false_nil (ws rate i tot : ℕ) :
    silenceStep ws rate i false ([], tot) = ([], tot) := rfl

/-- Evaluation: a non-silent window with a closed head does nothing. -/
theorem silenceStep_false_closed (ws rate i tot : ℕ) (s e d : ℚ)
    (rest : List RawPeriod) :
    silenceStep ws rate i false (⟨s, some e, d⟩ :: rest, tot) =
      (⟨s, some e, d⟩ :: rest, tot) := rfl

/-- Evaluation: a non-silent window closes an open head and recomputes its
duration (lines 606-610). -/
theorem silenceStep_false_open (ws rate i tot : ℕ) (s d : ℚ)
    (rest : List RawPeriod) :
    silenceStep ws rate i false (⟨s, none, d⟩ :: rest, tot) =
      (⟨s, some (winStart ws rate i), winStart ws rate i - s⟩ :: rest, tot) := rfl

/-- Evaluation: a silent window with no periods yet opens one (line 596). -/
theorem silenceStep_true_nil (ws rate i tot : ℕ) :
    silenceStep ws rate i true ([], tot) =
      ([⟨winStart ws rate i, none, 0⟩], tot + ws) := rfl

/-- Evaluation: a silent window after a closed head opens a new period. -/
theorem silenceStep_true_closed (ws rate i tot : ℕ) (s e d : ℚ)
    (rest : List RawPeriod) :
    silenceStep ws rate i true (⟨s, some e, d⟩ :: rest, tot) =
      (⟨winStart ws rate i, none, 0⟩ :: ⟨s, some e, d⟩ :: rest, tot + ws) := rfl

/-- Evaluation: a silent window after an open head sets the head's end one
window past the current window start, leaving `duration` untouched
(line 603). -/
theorem silenceStep_true_open (ws rate i tot : ℕ) (s d : ℚ)
    (rest : List RawPeriod) :
    silenceStep ws rate i true (⟨s, none, d⟩ :: rest, tot) =
      (⟨s, some (winStart ws rate i + (ws : ℚ) / (rate : ℚ)), d⟩ :: rest, tot + ws) := rfl

/-- `winStart` as a multiple of the window duration `u = ws / rate`. -/
theorem winStart_eq (ws rate i : ℕ) :
    winStart ws rate i = (i : ℚ) * ((ws : ℚ) / (rate : ℚ)) := by
  unfold winStart
  push_cast
  ring

/-- One loop iteration preserves the state invariant, with the bound
advancing by one window duration. -/
theorem invState_silenceStep (ws rate : ℕ) (hws : 0 < ws) (hrate : 0 < rate)
    (i : ℕ) (b : Bool) (ps : List RawPeriod) (tot : ℕ)
    (h : InvState ((ws : ℚ) / (rate : ℚ)) ((i : ℚ) * ((ws : ℚ) / (rate : ℚ))) ps) :
    InvState ((ws : ℚ) / (rate : ℚ)) (((i : ℚ) + 1) * ((ws : ℚ) / (rate : ℚ)))
      (silenceStep ws rate i b (ps, tot)).1 := by
  have hu : (0 : ℚ) < (ws : ℚ) / (rate : ℚ) :=
    div_pos (by exact_mod_cast hws) (by exact_mod_cast hrate)
  have hws_eq : winStart ws rate i = (i : ℚ) * ((ws : ℚ) / (rate : ℚ)) :=
    winStart_eq ws rate i
  have hring : ((i : ℚ) + 1) * ((ws : ℚ) / (rate : ℚ)) =
      (i : ℚ) * ((ws : ℚ) / (rate : ℚ)) + (ws : ℚ) / (rate : ℚ) := by ring
  cases b with
  | false =>
    rcases ps with - | ⟨⟨s, sp, d⟩, rest⟩
    · exact trivial
    · obtain ⟨h1, h2⟩ := h
      cases sp with
      | some e =>
        rw [silenceStep_false_closed]
        have h1' : s < e ∧ e ≤ (i : ℚ) * ((ws : ℚ) / (rate : ℚ)) := h1
        exact ⟨⟨h1'.1, by rw [hring]; linarith⟩, h2⟩
      | none =>
        rw [silenceStep_false_open]
        have h1' : s ≤ (i : ℚ) * ((ws : ℚ) / (rate : ℚ)) - (ws : ℚ) / (rate : ℚ) := h1
        refine ⟨⟨?_, ?_⟩, h2⟩
        · rw [hws_eq]; linarith
        · rw [hws_eq, hring]; linarith
  | true =>
    rcases ps with - | ⟨⟨s, sp, d⟩, rest⟩
    · rw [silenceStep_true_nil]
      refine ⟨?_, trivial⟩
      show winStart ws rate i ≤ ((i : ℚ) + 1) * ((ws : ℚ) / (rate : ℚ)) - (ws : ℚ) / (rate : ℚ)
      rw [hws_eq, hring]; linarith
    · obtain ⟨h1, h2⟩ := h
      cases sp with
      | some e =>
        rw [silenceStep_true_closed]
        have h1' : s < e ∧ e ≤ (i : ℚ) * ((ws : ℚ) / (rate : ℚ)) := h1
        refine ⟨?_, ⟨e, rfl, h1'.1, by rw [hws_eq]; exact h1'.2⟩, h2⟩
        show winStart ws rate i ≤ ((i : ℚ) + 1) * ((ws : ℚ) / (rate : ℚ)) - (ws : ℚ) / (rate : ℚ)
        rw [hws_eq, hring]; linarith
      | none =>
        rw [silenceStep_true_open]
        have h1' : s ≤ (i : ℚ) * ((ws : ℚ) / (rate : ℚ)) - (ws : ℚ) / (rate : ℚ) := h1
        refine ⟨⟨?_, ?_⟩, h2⟩
        · rw [hws_eq]; linarith
        · rw [hws_eq, hring]

/-- The loop preserves the invariant across a whole flag list. -/
theorem invState_silenceLoop (ws rate : ℕ) (hws : 0 < ws) (hrate : 0 < rate)
    (flags : List Bool) :
    ∀ (i : ℕ) (ps : List RawPeriod) (tot : ℕ),
      InvState ((ws : ℚ) / (rate : ℚ)) ((i : ℚ) * ((ws : ℚ) / (rate : ℚ))) ps →
      InvState ((ws : ℚ) / (rate : ℚ))
        (((i : ℚ) + (flags.length : ℚ)) * ((ws : ℚ) / (rate : ℚ)))
        (silenceLoop ws rate i flags (ps, tot)).1 := by
  induction flags with
  | nil =>
    intro i ps tot h
    simpa using h
  | cons b rest ih =>
    intro i ps tot h
    have hstep := invState_silenceStep ws rate hws hrate i b ps tot h
    have hcast : ((i : ℚ) + 1) = ((i + 1 : ℕ) : ℚ) := by push_cast; ring
    rw [hcast] at hstep
    have hres := ih (i + 1) (silenceStep ws rate i b (ps, tot)).1
      (silenceStep ws rate i b (ps, tot)).2 hstep
    show InvState _ _ (silenceLoop ws rate (i + 1) rest (silenceStep ws rate i b (ps, tot))).1
    have harith : (((i + 1 : ℕ) : ℚ) + (rest.length : ℚ)) =
        ((i : ℚ) + ((rest.length + 1 : ℕ) : ℚ)) := by push_cast; ring
    rw [harith] at hres
    simpa using hres

/-- Facts extracted from a closed chain: bounds, pairwise ordering, and
invariance under the close-out pass. -/
theorem closedChain_facts (E : ℚ) :
    ∀ (b : ℚ) (l : List RawPeriod), ClosedChain b l →
      (∀ q ∈ l, ∃ e, q.stop = some e ∧ q.start < e ∧ e ≤ b) ∧
      List.Pairwise (fun a c => c.stop.getD 0 ≤ a.start) l ∧
      l.map (closePeriod E) = l := by
  intro b l
  induction l generalizing b with
  | nil => intro _; exact ⟨by simp, List.Pairwise.nil, rfl⟩
  | cons p rest ih =>
    rintro ⟨⟨e, hstop, hlt, hle⟩, hchain⟩
    obtain ⟨hmem, hpw, hmap⟩ := ih p.start hchain
    refine ⟨?_, ?_, ?_⟩
    · intro q hq
      rcases List.mem_cons.mp hq with rfl | hq'
      · exact ⟨e, hstop, hlt, hle⟩
      · obtain ⟨e', h1, h2, h3⟩ := hmem q hq'
        exact ⟨e', h1, h2, by linarith⟩
    · refine List.Pairwise.cons ?_ hpw
      intro c hc
      obtain ⟨e', h1, _, h3⟩ := hmem c hc
      rw [h1]
      simpa using h3
    · simp only [List.map_cons, hmap]
      congr 1
      simp [closePeriod, hstop]

/-- The close-out pass applied to an invariant state yields a list of
closed periods (start strictly below stop) that is pairwise ordered
newest-first. -/
theorem invState_closed (u b E : ℚ) (hu : 0 < u) (hbE : b ≤ E)
    (ps : List RawPeriod) (h : InvState u b ps) :
    (∀ q ∈ ps.map (closePeriod E), ∃ e, q.stop = some e ∧ q.start < e) ∧
    List.Pairwise (fun a c => c.stop.getD 0 ≤ a.start) (ps.map (closePeriod E)) := by
  rcases ps with - | ⟨⟨s, sp, d⟩, rest⟩
  · exact ⟨by simp, by simp⟩
  · obtain ⟨hhead, hchain⟩ := h
    obtain ⟨hmem, hpw, hmap⟩ := closedChain_facts E s rest hchain
    rw [List.map_cons, hmap]
    cases sp with
    | some e =>
      have hhead' : s < e ∧ e ≤ b := hhead
      have hclose : closePeriod E ⟨s, some e, d⟩ = ⟨s, some e, d⟩ := rfl
      rw [hclose]
      refine ⟨?_, ?_⟩
      · intro q hq
        rcases List.mem_cons.mp hq with rfl | hq'
        · exact ⟨e, rfl, hhead'.1⟩
        · obtain ⟨e', h1, h2, _⟩ := hmem q hq'
          exact ⟨e', h1, h2⟩
      · refine List.Pairwise.cons ?_ hpw
        intro c hc
        obtain ⟨e', h1, _, h3⟩ := hmem c hc
        rw [h1]
        simpa using h3
    | none =>
      have hhead' : s ≤ b - u := hhead
      have hclose : closePeriod E ⟨s, none, d⟩ = ⟨s, some E, E - s⟩ := rfl
      rw [hclose]
      refine ⟨?_, ?_⟩
      · intro q hq
        rcases List.mem_cons.mp hq with rfl | hq'
        · exact ⟨E, rfl, by show s < E; linarith⟩
        · obtain ⟨e', h1, h2, _⟩ := hmem q hq'
          exact ⟨e', h1, h2⟩
      · refine List.Pairwise.cons ?_ hpw
        intro c hc
        obtain ⟨e', h1, _, h3⟩ := hmem c hc
        rw [h1]
        simpa using h3

/-- Bounds for round-half-to-even: it lands on the floor or the floor
plus one. -/
theorem roundHalfEven_le (x : ℚ) :
    ⌊x⌋ ≤ roundHalfEven x ∧ roundHalfEven x ≤ ⌊x⌋ + 1 := by
  unfold roundHalfEven
  split_ifs <;> omega

/-- Round-half-to-even is monotone. -/
theorem roundHalfEven_mono {x y : ℚ} (h : x ≤ y) :
    roundHalfEven x ≤ roundHalfEven y := by
  rcases lt_or_le ⌊x⌋ ⌊y⌋ with hf | hf
  · have h1 := (roundHalfEven_le x).2
    have h2 := (roundHalfEven_le y).1
    omega
  · have hf' : ⌊x⌋ = ⌊y⌋ := le_antisymm (Int.floor_le_floor h) hf
    have hxy : x - (⌊y⌋ : ℚ) ≤ y - (⌊y⌋ : ℚ) := by linarith
    unfold roundHalfEven
    rw [hf']
    split_ifs <;> first | omega | linarith

/-- The 2-decimal rounding of the model is monotone. -/
theorem pyRound2_mono {x y : ℚ} (h : x ≤ y) : pyRound2 x ≤ pyRound2 y := by
  unfold pyRound2
  have hmono := roundHalfEven_mono (show 100 * x ≤ 100 * y by linarith)
  have hc : ((roundHalfEven (100 * x) : ℚ)) ≤ ((roundHalfEven (100 * y) : ℚ)) := by
    exact_mod_cast hmono
  linarith

/-- Well-formedness of the periods reported by the post-guard body of
`_detect_silence`: starts do not exceed ends, and the list is ordered with
non-overlapping periods. -/
theorem silenceResult_periods_wf (t m : ℚ) (samples : List ℚ) (rate ws nw : ℕ)
    (hws : 0 < ws) (hrate : 0 < rate) (hnwlen : nw * ws ≤ samples.length) :
    (silenceResult t m samples rate ws nw).silence_periods.Forall
      (fun p => p.start_seconds ≤ p.end_seconds) ∧
    (silenceResult t m samples rate ws nw).silence_periods.Pairwise
      (fun p q => p.end_seconds ≤ q.start_seconds) := by
  have hu : (0 : ℚ) < (ws : ℚ) / (rate : ℚ) :=
    div_pos (by exact_mod_cast hws) (by exact_mod_cast hrate)
  set flags := (List.range nw).map
    (fun i => windowSilentB t ((samples.drop (i * ws)).take ws)) with hflags_def
  set st := silenceLoop ws rate 0 flags ([], 0) with hst_def
  set E : ℚ := (samples.length : ℚ) / (rate : ℚ) with hE_def
  have hinv0 : InvState ((ws : ℚ) / (rate : ℚ))
      (((0 : ℕ) : ℚ) * ((ws : ℚ) / (rate : ℚ))) ([] : List RawPeriod) := trivial
  have hinv := invState_silenceLoop ws rate hws hrate flags 0 [] 0 hinv0
  rw [← hst_def] at hinv
  have hlen : flags.length = nw := by rw [hflags_def]; simp
  rw [hlen] at hinv
  have hnorm : (((0 : ℕ) : ℚ) + (nw : ℚ)) = (nw : ℚ) := by push_cast; ring
  rw [hnorm] at hinv
  have hbE : (nw : ℚ) * ((ws : ℚ) / (rate : ℚ)) ≤ E := by
    have hcast : ((nw : ℚ)) * (ws : ℚ) ≤ (samples.length : ℚ) := by
      exact_mod_cast hnwlen
    rw [hE_def, ← mul_div_assoc]
    gcongr
  obtain ⟨hclosed, hpair⟩ := invState_closed ((ws : ℚ) / (rate : ℚ))
    ((nw : ℚ) * ((ws : ℚ) / (rate : ℚ))) E hu hbE st.1 hinv
  have hrev_mem : ∀ q ∈ (st.1.reverse).map (closePeriod E),
      ∃ e, q.stop = some e ∧ q.start < e := by
    intro q hq
    rw [List.map_reverse, List.mem_reverse] at hq
    exact hclosed q hq
  have hrev_pair : List.Pairwise (fun a c => a.stop.getD 0 ≤ c.start)
      ((st.1.reverse).map (closePeriod E)) := by
    rw [List.map_reverse, List.pairwise_reverse]
    exact hpair
  have hperiods : (silenceResult t m samples rate ws nw).silence_periods =
      (((st.1.reverse).map (closePeriod E)).filter
        (fun p => decide (m ≤ p.duration))).map (fun p =>
          ⟨pyRound2 p.start, pyRound2 (p.stop.getD 0), pyRound2 p.duration⟩) := rfl
  rw [hperiods]
  constructor
  · rw [List.forall_iff_forall_mem]
    intro p hp
    rw [List.mem_map] at hp
    obtain ⟨q, hq, rfl⟩ := hp
    obtain ⟨e, hstop, hlt⟩ := hrev_mem q (List.mem_of_mem_filter hq)
    simp only [hstop, Option.getD_some]
    exact pyRound2_mono (le_of_lt hlt)
  · refine List.Pairwise.map _ ?_
      (hrev_pair.sublist (List.filter_sublist _))
    intro a c hac
    simp only
    exact pyRound2_mono hac

/-- C9: every period in the reported `silencePeriods` list satisfies
`endSeconds ≥ startSeconds`, and the list is time-ordered with pairwise
non-overlapping periods (each period's end is at most the next period's
start); a skipped pass reports no periods at all. -/
theorem silencePeriods_wellformed (t m : ℚ) (samples : List ℚ) (rate : ℕ) :
    (reportedPeriods (detectSilence t m samples rate)).Forall
      (fun p => p.start_seconds ≤ p.end_seconds) ∧
    (reportedPeriods (detectSilence t m samples rate)).Pairwise
      (fun p q => p.end_seconds ≤ q.start_seconds) := by
  by_cases h1 : rate = 0
  · simp [detectSilence, h1, reportedPeriods, List.Forall]
  by_cases h2 : samples.length = 0
  · simp [detectSilence, h1, h2, reportedPeriods, List.Forall]
  by_cases h3 : samples.length / max 1 (rate / 10) = 0
  · simp [detectSilence, h1, h2, h3, reportedPeriods, List.Forall]
  rw [detectSilence, if_neg h1, if_neg h2, if_neg h3]
  have hws : 0 < max 1 (rate / 10) := lt_of_lt_of_le one_pos (le_max_left _ _)
  have hrate : 0 < rate := Nat.pos_of_ne_zero h1
  exact silenceResult_periods_wf t m samples rate _ _ hws hrate
    (Nat.div_mul_le_self _ _)

/-! ### Evaluation lemmas for the silence pass (towards C1 and C2) -/

/-- A window classified silent gives flag `true`. -/
theorem windowSilentB_true {t : ℚ} {w : List ℚ} (h : windowSilent t w) :
    windowSilentB t w = true := by
  unfold windowSilentB
  simp only [decide_eq_true_eq]
  exact h

/-- A window classified non-silent gives flag `false`. -/
theorem windowSilentB_false {t : ℚ} {w : List ℚ} (h : ¬ windowSilent t w) :
    windowSilentB t w = false := by
  unfold windowSilentB
  simp only [decide_eq_false_iff_not]
  exact h

/-- The mean square of an all-zero window is zero. -/
theorem meanSq_replicate_zero (k : ℕ) : meanSq (List.replicate k (0 : ℚ)) = 0 := by
  unfold meanSq
  rw [List.map_replicate]
  simp

/-- An all-zero window is silent for every threshold (`rms_db = -inf`). -/
theorem windowSilent_zero (t : ℚ) (k : ℕ) : windowSilent t (List.replicate k 0) := by
  unfold windowSilent
  rw [meanSq_replicate_zero]
  simp

/-- The mean square of a full-scale window (`-32768` everywhere) is
`32768² = 1073741824`. -/
theorem meanSq_replicate_fullscale (k : ℕ) (hk : k ≠ 0) :
    meanSq (List.replicate k (-32768 : ℚ)) = 1073741824 := by
  unfold meanSq
  rw [List.map_replicate, List.sum_replicate, List.length_replicate, nsmul_eq_mul]
  have hkq : (k : ℚ) ≠ 0 := Nat.cast_ne_zero.mpr hk
  field_simp
  ring

/-- A nonempty full-scale window is never silent for a threshold ≤ 0: its
rms is exactly full scale, so its level is 0 dB. -/
theorem windowSilent_fullscale (t : ℚ) (ht : t ≤ 0) (k : ℕ) (hk : k ≠ 0) :
    ¬ windowSilent t (List.replicate k (-32768)) := by
  unfold windowSilent
  rw [meanSq_replicate_fullscale k hk, if_pos (by norm_num)]
  push_cast
  rw [show ((1073741824 : ℝ)) = 32768 ^ 2 by norm_num,
    Real.sqrt_sq (by norm_num : (0 : ℝ) ≤ 32768),
    show ((32768 : ℝ) / 2 ^ 15) = 1 by norm_num, Real.logb_one, mul_zero]
  exact not_lt.mpr (by exact_mod_cast ht)

/-- Closing a period that is already closed does nothing. -/
theorem closePeriod_closed {E : ℚ} {p : RawPeriod} {e : ℚ} (h : p.stop = some e) :
    closePeriod E p = p := by
  unfold closePeriod
  rw [h]

/-- Every period produced by a run of silent windows is closed with a
`duration` field equal to 0. -/
theorem pairBlocks_mem (ws rate : ℕ) :
    ∀ (k i : ℕ) (p : RawPeriod), p ∈ pairBlocks ws rate i k →
      (∃ e, p.stop = some e) ∧ p.duration = 0 := by
  intro k
  induction k with
  | zero =>
    intro i p hp
    simp [pairBlocks] at hp
  | succ k ih =>
    intro i p hp
    rw [pairBlocks] at hp
    rcases List.mem_append.mp hp with h | h
    · exact ih (i + 2) p h
    · rw [List.mem_singleton] at h
      subst h
      exact ⟨⟨_, rfl⟩, rfl⟩

/-- A list of closed periods has a closed head. -/
theorem headClosed_of_forall {l : List RawPeriod}
    (h : ∀ p ∈ l, ∃ e, p.stop = some e) : HeadClosed l := by
  cases l with
  | nil => trivial
  | cons p rest => exact h p (List.mem_cons_self p rest)

/-- The loop distributes over an append of flag lists. -/
theorem silenceLoop_append (ws rate : ℕ) (l1 l2 : List Bool) :
    ∀ (i : ℕ) (st : List RawPeriod × ℕ),
      silenceLoop ws rate i (l1 ++ l2) st =
        silenceLoop ws rate (i + l1.length) l2 (silenceLoop ws rate i l1 st) := by
  induction l1 with
  | nil =>
    intro i st
    simp [silenceLoop]
  | cons b rest ih =>
    intro i st
    simp only [List.cons_append, silenceLoop, List.length_cons, List.append_eq]
    rw [ih (i + 1)]
    congr 1
    omega

/-- A silent window on a closed-head state opens a fresh period. -/
theorem silenceStep_true_headClosed (ws rate i tot : ℕ) (ps : List RawPeriod)
    (hclosed : HeadClosed ps) :
    silenceStep ws rate i true (ps, tot) =
      (⟨winStart ws rate i, none, 0⟩ :: ps, tot + ws) := by
  cases ps with
  | nil => rw [silenceStep_true_nil]
  | cons p rest =>
    obtain ⟨e, he⟩ := hclosed
    obtain ⟨s, sp, d⟩ := p
    simp only at he
    subst he
    rw [silenceStep_true_closed]

/-- A non-silent window on a closed-head state does nothing. -/
theorem silenceStep_false_headClosed (ws rate i tot : ℕ) (ps : List RawPeriod)
    (hclosed : HeadClosed ps) :
    silenceStep ws rate i false (ps, tot) = (ps, tot) := by
  cases ps with
  | nil => rw [silenceStep_false_nil]
  | cons p rest =>
    obtain ⟨e, he⟩ := hclosed
    obtain ⟨s, sp, d⟩ := p
    simp only at he
    subst he
    rw [silenceStep_false_closed]

/-- Closed form of the loop on a run of `2k` silent windows starting from a
closed-head state: the run is chopped into `k` two-window periods, each
left with `duration = 0` (the merge slip), and the silent-sample counter
advances by `2k` windows. -/
theorem silenceLoop_pairs (ws rate : ℕ) :
    ∀ (k i : ℕ) (ps : List RawPeriod) (tot : ℕ), HeadClosed ps →
      silenceLoop ws rate i (List.replicate (2 * k) true) (ps, tot) =
        (pairBlocks ws rate i k ++ ps, tot + 2 * k * ws) := by
  intro k
  induction k with
  | zero =>
    intro i ps tot _
    simp [pairBlocks, silenceLoop]
  | succ k ih =>
    intro i ps tot hclosed
    rw [show 2 * (k + 1) = 2 * k + 1 + 1 by omega,
      show List.replicate (2 * k + 1 + 1) true =
        true :: true :: List.replicate (2 * k) true by simp [List.replicate_succ]]
    simp only [silenceLoop]
    rw [silenceStep_true_headClosed ws rate i tot ps hclosed, silenceStep_true_open]
    have hc : HeadClosed
        (RawPeriod.mk (winStart ws rate i)
          (some (winStart ws rate (i + 1) + (ws : ℚ) / (rate : ℚ))) 0 :: ps) :=
      ⟨_, rfl⟩
    rw [ih (i + 1 + 1) _ _ hc, pairBlocks]
    rw [Prod.mk.injEq]
    constructor
    · rw [List.append_assoc, List.singleton_append]
    · ring

/-- The loop ignores a run of non-silent windows from a closed-head
state. -/
theorem silenceLoop_falses (ws rate : ℕ) :
    ∀ (n i : ℕ) (ps : List RawPeriod) (tot : ℕ), HeadClosed ps →
      silenceLoop ws rate i (List.replicate n false) (ps, tot) = (ps, tot) := by
  intro n
  induction n with
  | zero =>
    intro i ps tot _
    rfl
  | succ n ih =>
    intro i ps tot hclosed
    rw [List.replicate_succ]
    simp only [silenceLoop]
    rw [silenceStep_false_headClosed ws rate i tot ps hclosed]
    exact ih (i + 1) ps tot hclosed

/-- Closed form of the whole silence pass when the windows are a run of
`2k` silent windows followed by `n` non-silent ones: every period is a
zero-`duration` two-window period, so the filtered list is empty,
`silence_detected` is `false` and no period is reported, while the silent
sample counter still counts all `2k` windows. -/
theorem silenceResult_mergeSlip (t m : ℚ) (hm : 0 < m) (samples : List ℚ)
    (rate ws k n : ℕ)
    (hflags : (List.range (2 * k + n)).map
        (fun i => windowSilentB t ((samples.drop (i * ws)).take ws)) =
      List.replicate (2 * k) true ++ List.replicate n false) :
    silenceResult t m samples rate ws (2 * k + n) =
      ⟨false,
       pyRound2 (if 0 < samples.length then
         ((2 * k * ws : ℕ) : ℚ) / (samples.length : ℚ) * 100 else 0),
       [], t⟩ := by
  have hloop : silenceLoop ws rate 0
      (List.replicate (2 * k) true ++ List.replicate n false) ([], 0) =
      (pairBlocks ws rate 0 k, 2 * k * ws) := by
    rw [silenceLoop_append, silenceLoop_pairs ws rate k 0 [] 0 trivial,
      List.length_replicate]
    rw [silenceLoop_falses ws rate n _ _ _
      (headClosed_of_forall (fun p hp => by
        have := pairBlocks_mem ws rate k 0 p (by simpa using hp)
        exact this.1))]
    simp
  have hclosedmap : ∀ (E : ℚ),
      ((pairBlocks ws rate 0 k).reverse).map (closePeriod E) =
        (pairBlocks ws rate 0 k).reverse := by
    intro E
    have h : ∀ p ∈ (pairBlocks ws rate 0 k).reverse, closePeriod E p = id p := by
      intro p hp
      rw [List.mem_reverse] at hp
      obtain ⟨⟨e, he⟩, -⟩ := pairBlocks_mem ws rate k 0 p hp
      simpa using closePeriod_closed he
    rw [List.map_congr_left h, List.map_id]
  have hfilter : ((pairBlocks ws rate 0 k).reverse).filter
      (fun p => decide (m ≤ p.duration)) = [] := by
    rw [List.filter_eq_nil_iff]
    intro p hp
    rw [List.mem_reverse] at hp
    obtain ⟨-, hd⟩ := pairBlocks_mem ws rate k 0 p hp
    simp [hd]
    linarith
  simp only [silenceResult, hflags, hloop, hclosedmap, hfilter]
  simp

/-- Flags for an all-zero buffer: every window is silent. -/
theorem flags_allzero (t : ℚ) (N ws nw : ℕ) :
    (List.range nw).map
      (fun i => windowSilentB t (((List.replicate N (0 : ℚ)).drop (i * ws)).take ws)) =
    List.replicate nw true := by
  have h : ∀ i ∈ List.range nw,
      windowSilentB t (((List.replicate N (0 : ℚ)).drop (i * ws)).take ws) = true := by
    intro i _
    rw [List.drop_replicate, List.take_replicate]
    exact windowSilentB_true (windowSilent_zero t _)
  rw [List.map_congr_left h, List.map_const', List.length_range]

/-- Folding `max` over an all-zero list gives 0. -/
theorem foldr_max_replicate_zero (N : ℕ) :
    (List.replicate N (0 : ℚ)).foldr max 0 = 0 := by
  induction N with
  | zero => rfl
  | succ n ih =>
    rw [List.replicate_succ, List.foldr_cons, ih]
    simp

/-- Quality pass on an all-zero buffer: zero power means `-inf` dB, so both
volume fields (and the dynamic range) are `None`; nothing clips. -/
theorem analyzeQuality_allzero (N : ℕ) (hN : N ≠ 0) :
    analyzeQuality (List.replicate N (0 : ℚ)) = some ⟨none, none, none, false, some 0⟩ := by
  have hnorm : (List.replicate N (0 : ℚ)).map (fun s => s / 2 ^ 15) =
      List.replicate N 0 := by
    rw [List.map_replicate]
    norm_num
  have hsq : (List.replicate N (0 : ℚ)).map (fun s => s * s) =
      List.replicate N 0 := by
    rw [List.map_replicate]
    norm_num
  have habs : (List.replicate N (0 : ℚ)).map (fun s => |s|) =
      List.replicate N 0 := by
    rw [List.map_replicate]
    norm_num
  have hfil : (List.replicate N (0 : ℚ)).filter (fun s => decide (99 / 100 ≤ |s|)) = [] := by
    rw [List.filter_replicate]
    norm_num
  have hround0 : pyRound2 0 = 0 := by
    unfold pyRound2 roundHalfEven
    norm_num
  simp only [analyzeQuality, List.length_replicate, if_neg hN, hnorm, hsq, habs, hfil,
    List.sum_replicate, smul_zero, foldr_max_replicate_zero, List.length_nil]
  rw [if_neg (by norm_num : ¬ (0 : ℚ) < 0 / (N : ℚ)), if_neg (by norm_num : ¬ (0 : ℚ) < 0)]
  simp only [Option.map_none]
  have hpct : (if 0 < N then ((0 : ℕ) : ℚ) / (N : ℚ) * 100 else 0) = 0 := by
    split_ifs <;> norm_num
  rw [hpct, hround0]
  norm_num

/-- Silence pass on a 3-second all-zero buffer at 44100 Hz with the default
configuration: the 30 silent windows become 15 zero-duration periods, all
filtered out, so `silence_detected = false` and no period is reported, while
`silence_percentage` is still 100. -/
theorem detectSilence_allzero_eval :
    detectSilence (-40) 2 (List.replicate 132300 (0 : ℚ)) 44100 =
      some ⟨false, 100, [], -40⟩ := by
  have hflags : (List.range (2 * 15 + 0)).map
      (fun i => windowSilentB (-40)
        (((List.replicate 132300 (0 : ℚ)).drop (i * 4410)).take 4410)) =
      List.replicate (2 * 15) true ++ List.replicate 0 false := by
    rw [List.replicate_zero, List.append_nil]
    exact flags_allzero (-40) 132300 4410 30
  have hmain := silenceResult_mergeSlip (-40) 2 (by norm_num)
    (List.replicate 132300 (0 : ℚ)) 44100 4410 15 0 hflags
  rw [detectSilence, if_neg (by norm_num),
    if_neg (by rw [List.length_replicate]; decide),
    if_neg (by rw [List.length_replicate]; decide)]
  rw [show (max 1 (44100 / 10 : ℕ)) = 4410 from by decide]
  rw [List.length_replicate]
  rw [show (132300 / 4410 : ℕ) = 2 * 15 + 0 from by decide]
  rw [hmain]
  rw [List.length_replicate]
  have hpct : (if 0 < (132300 : ℕ) then
      ((2 * 15 * 4410 : ℕ) : ℚ) / ((132300 : ℕ) : ℚ) * 100 else 0) = 100 := by
    rw [if_pos (by norm_num)]
    norm_num
  rw [hpct]
  have h100 : pyRound2 100 = 100 := by
    unfold pyRound2 roundHalfEven
    norm_num
  rw [h100]

/-- C2: on an all-zero buffer of 3.0 s at 44100 Hz (duration well above the
default `minPeriodSeconds = 2`), the quality pass yields
`averageVolumeDb = None` and `peakVolumeDb = None` and the silence pass
yields `silencePercentage = 100.0` — but `silenceDetected` is `false`, not
`true` as the claim states, because the period-merging slip leaves only
zero-duration periods to filter. -/
theorem allZero_buffer_eval :
    detectSilence (-40) 2 (List.replicate 132300 (0 : ℚ)) 44100 =
      some ⟨false, 100, [], -40⟩ ∧
    analyzeQuality (List.replicate 132300 (0 : ℚ)) =
      some ⟨none, none, none, false, some 0⟩ :=
  ⟨detectSilence_allzero_eval, analyzeQuality_allzero 132300 (by norm_num)⟩

/-- Windows 0-29 of the 3s-silence + 1s-full-scale buffer are all zero. -/
theorem window_of_zero (i : ℕ) (hi : i < 30) :
    (((List.replicate 132300 (0 : ℚ) ++ List.replicate 44100 (-32768 : ℚ)).drop
      (i * 4410)).take 4410) = List.replicate 4410 (0 : ℚ) := by
  have hmin : min 4410 (132300 - i * 4410) = 4410 := by omega
  rw [List.drop_append_of_le_length (by rw [List.length_replicate]; omega),
    List.drop_replicate,
    List.take_append_of_le_length (by rw [List.length_replicate]; omega),
    List.take_replicate, hmin]

/-- Windows 30-39 of the 3s-silence + 1s-full-scale buffer are all at full
scale. -/
theorem window_of_loud (i : ℕ) (h30 : 30 ≤ i) (hi : i < 40) :
    (((List.replicate 132300 (0 : ℚ) ++ List.replicate 44100 (-32768 : ℚ)).drop
      (i * 4410)).take 4410) = List.replicate 4410 (-32768 : ℚ) := by
  have hmin : min 4410 (44100 - (i * 4410 - 132300)) = 4410 := by omega
  rw [List.drop_append_eq_append_drop,
    List.drop_eq_nil_of_le (by rw [List.length_replicate]; omega),
    List.nil_append, List.length_replicate, List.drop_replicate, List.take_replicate,
    hmin]

/-- Window flags of the 3s-silence + 1s-full-scale buffer at the default
threshold: 30 silent windows then 10 non-silent ones. -/
theorem flags_zero_then_loud :
    (List.range (2 * 15 + 10)).map
      (fun i => windowSilentB (-40)
        (((List.replicate 132300 (0 : ℚ) ++ List.replicate 44100 (-32768 : ℚ)).drop
          (i * 4410)).take 4410)) =
      List.replicate (2 * 15) true ++ List.replicate 10 false := by
  apply List.ext_getElem
  · simp only [List.length_map, List.length_range, List.length_append,
      List.length_replicate]
  intro i h1 h2
  have h40 : i < 40 := by
    simp only [List.length_map, List.length_range] at h1
    omega
  rw [List.getElem_map, List.getElem_range]
  by_cases hi : i < 30
  · rw [List.getElem_append_left (by rw [List.length_replicate]; omega),
      List.getElem_replicate, window_of_zero i hi]
    exact windowSilentB_true (windowSilent_zero _ _)
  · rw [List.getElem_append_right (by rw [List.length_replicate]; omega),
      List.getElem_replicate, window_of_loud i (by omega) h40]
    exact windowSilentB_false (windowSilent_fullscale (-40) (by norm_num) 4410 (by decide))

/-- C1: on a buffer of 3.0 s of digital silence followed by 1.0 s of
full-scale signal at 44100 Hz, with threshold -40 dB and
`minPeriodSeconds = 2`, `_detect_silence` reports NO silence period and
`silenceDetected = false` (with 75% silent samples): the 30-window silent
run is split into 15 zero-duration two-window periods instead of one merged
period [0 s, 3 s] of duration 3 ≥ 2, contradicting the merge rule the
claim (and the code's own comments) describe. -/
theorem detectSilence_mergebug_eval :
    detectSilence (-40) 2
      (List.replicate 132300 (0 : ℚ) ++ List.replicate 44100 (-32768 : ℚ)) 44100 =
      some ⟨false, 75, [], -40⟩ := by
  have hlen : (List.replicate 132300 (0 : ℚ) ++
      List.replicate 44100 (-32768 : ℚ)).length = 176400 := by
    rw [List.length_append, List.length_replicate, List.length_replicate]
  have hmain := silenceResult_mergeSlip (-40) 2 (by norm_num) _ 44100 4410 15 10
    flags_zero_then_loud
  rw [detectSilence, if_neg (by norm_num),
    if_neg (by rw [hlen]; decide),
    if_neg (by rw [hlen]; decide)]
  rw [show (max 1 (44100 / 10 : ℕ)) = 4410 from by decide]
  rw [hlen]
  rw [show (176400 / 4410 : ℕ) = 2 * 15 + 10 from by decide]
  rw [hmain]
  rw [hlen]
  have hpct : (if 0 < (176400 : ℕ) then
      ((2 * 15 * 4410 : ℕ) : ℚ) / ((176400 : ℕ) : ℚ) * 100 else 0) = 75 := by
    rw [if_pos (by norm_num)]
    norm_num
  rw [hpct]
  have h75 : pyRound2 75 = 75 := by
    unfold pyRound2 roundHalfEven
    norm_num
  rw [h75]

/-! ### `analyze` failure paths (towards C4) -/

/-- C4 counterexample: on a failed download the returned record's
`audio_quality` section is the initial dict of lines 149-154, which has NO
`clipping_percentage` key (modelled as `none`), so the record does not
contain the full `audioQuality` shape "including clippingPercentage" that
the claim asserts; the canonical error string is set as claimed. -/
theorem analyze_missing_clipping_counterexample :
    (analyze "u" 10 (-40) 2 ⟨false, .timedOut false⟩ .exn).audio_quality.clipping_percentage
      = none ∧
    (analyze "u" 10 (-40) 2 ⟨false, .timedOut false⟩ .exn).error =
      some "Failed to download audio sample" := by
  constructor <;> rfl

/-- C4 amended: `analyze` always returns a record and never raises (the
embedding is total); when acquisition fails the record is exactly the
initial record with `error = "Failed to download audio sample"`, and when
decoding fails it is exactly the initial record with
`error = "Failed to load audio data"` — in both cases all three
sub-sections hold their zero-value defaults, but the `audioQuality`
sub-section lacks the `clippingPercentage` key (present only after a
successful analysis). -/
theorem analyze_failure_spec (url : String) (sd : ℤ) (t m : ℚ)
    (denv : DownloadEnv) (lout : LoadOutcome) :
    ((downloadAudioSample url sd denv).path = none →
      analyze url sd t m denv lout =
        { initialResult sd t with error := some "Failed to download audio sample" }) ∧
    (∀ p, (downloadAudioSample url sd denv).path = some p →
      loadAudioRaw lout = none →
      analyze url sd t m denv lout =
        { initialResult sd t with error := some "Failed to load audio data" }) := by
  constructor
  · intro h
    unfold analyze
    rw [h]
  · intro p hp hl
    unfold analyze
    rw [hp, hl]

/-- Witness for C4's amended theorem at a concrete failing download. -/
theorem analyze_failure_spec_witness :
    analyze "u" 10 (-40) 2 ⟨true, .raised false⟩ .exn =
      { initialResult 10 (-40) with error := some "Failed to download audio sample" } :=
  (analyze_failure_spec "u" 10 (-40) 2 ⟨true, .raised false⟩ .exn).1 (by rfl)

end StreamChecker
